import Mathlib

/-!
Shallow embedding of the RAG-Document-QnA backend (Python) in Lean 4.

Python strings are modelled as `List Char` (or `String` where convenient);
Python whitespace (the ASCII characters matched by the regex class `\s`)
is modelled by `pySpace`.  Each service function is translated from the
source file named next to it.
-/

namespace RAGQnA

/-- The ASCII whitespace characters matched by Python's regex `\s`
(space, tab, newline, carriage return, vertical tab, form feed). -/
def pySpace (c : Char) : Bool :=
  c = ' ' ∨ c = '\t' ∨ c = '\n' ∨ c = '\r' ∨ c = '\x0b' ∨ c = '\x0c'

/-- Python `str.strip()`: drop whitespace from both ends. -/
def pyStrip (l : List Char) : List Char :=
  (l.dropWhile pySpace).rdropWhile pySpace

/-- Python `str.strip()` on `String`. -/
def pyStripS (s : String) : String :=
  (pyStrip s.toList).asString

/-- `app/utils/text_utils.py`, `remove_control_characters`:
`re.sub(r'[\x00-\x08\x0b-\x0c\x0e-\x1f\x7f-\x9f]', '', text)`. -/
def isControlChar (c : Char) : Bool :=
  (c.toNat ≤ 0x08) ∨ (0x0b ≤ c.toNat ∧ c.toNat ≤ 0x0c) ∨
  (0x0e ≤ c.toNat ∧ c.toNat ≤ 0x1f) ∨ (0x7f ≤ c.toNat ∧ c.toNat ≤ 0x9f)

def remove_control_characters (l : List Char) : List Char :=
  l.filter (fun c => ¬ isControlChar c)

/-- First substitution of `normalize_whitespace`:
`re.sub(r'\s+', ' ', text)` — every maximal run of whitespace
becomes a single space. -/
def collapseWS : List Char → List Char
  | [] => []
  | c :: rest =>
    if pySpace c then
      match rest with
      | [] => [' ']
      | d :: rest2 =>
        if pySpace d then collapseWS (d :: rest2) else ' ' :: collapseWS (d :: rest2)
    else c :: collapseWS rest

/-- Index of the last `'\n'` inside the leading whitespace run of `l`,
if any: the backtracking target of the regex `\n\s*\n` after its first
`\n` has been consumed.  Returns the largest `j` with `l[j] = '\n'` and
`l[0..j-1]` all whitespace. -/
def lastNLInRun (l : List Char) : Option Nat :=
  let w := l.takeWhile pySpace
  let idxs := (List.range w.length).filter (fun j => w.getD j ' ' = '\n')
  idxs.getLast?

/-- Second substitution of `normalize_whitespace`:
`re.sub(r'\n\s*\n', '\n\n', text)`, scanning left to right; a match is a
`'\n'`, a greedy run of whitespace, and a final `'\n'`. -/
def subNLRuns : List Char → List Char
  | [] => []
  | c :: rest =>
    if c = '\n' then
      match lastNLInRun rest with
      | some j => '\n' :: '\n' :: subNLRuns (rest.drop (j + 1))
      | none => c :: subNLRuns rest
    else c :: subNLRuns rest
termination_by l => l.length
decreasing_by
  all_goals simp only [List.length_cons, List.length_drop]
  all_goals omega

/-- `app/utils/text_utils.py`, `normalize_whitespace`. -/
def normalize_whitespace (l : List Char) : List Char :=
  subNLRuns (collapseWS l)

/-- `app/utils/text_utils.py`, `clean_text`: empty input short-circuits,
otherwise remove control characters, normalize whitespace, strip. -/
def clean_text (l : List Char) : List Char :=
  if l = [] then []
  else pyStrip (normalize_whitespace (remove_control_characters l))

/-! ### `app/services/document_processor.py` -/

/-- Ceiling division on naturals, `⌈a / b⌉` for `b > 0`. -/
def ceilDivNat (a b : Nat) : Nat := (a + b - 1) / b

/-- The `while start < len(text)` loop of `chunk_text_fixed`: slice
`text[start : start+size]`, strip it, append, advance `start` by
`size - overlap`.  Modelled for `overlap < size` only (otherwise the
source loop never terminates); outside that precondition the model
returns `[]`. -/
def chunkLoop (text : List Char) (size overlap : Nat) (start : Nat) :
    List (List Char) :=
  if h : start < text.length ∧ overlap < size then
    pyStrip ((text.drop start).take size) ::
      chunkLoop text size overlap (start + (size - overlap))
  else []
termination_by text.length - start
decreasing_by
  have h1 := h.1
  have h2 := h.2
  omega

/-- `DocumentProcessor.chunk_text_fixed`: if the text fits in one chunk
return it unchanged as a singleton, else run the sliding-window loop
from `start = 0`. -/
def chunk_text_fixed (text : List Char) (size overlap : Nat) :
    List (List Char) :=
  if text.length ≤ size then [text]
  else chunkLoop text size overlap 0

/-! ### `app/services/vector_store.py`

The Qdrant collection is modelled as a list of point entries; a point
carries the payload fields `add_documents` writes.  Similarity scoring
is abstracted as a supplied integer score function, and point ids
(`uuid.uuid4()` in the source) as a supplied id per position. -/

structure Entry where
  pid : Nat
  document_id : String
  chunk_index : Nat
  chunk_text : String
  document_name : String
deriving Repr, DecidableEq

/-- `QdrantVectorStore.add_documents`: reject mismatched list lengths
(storing nothing), else build one point per (chunk, embedding) pair —
payload `document_id`, `chunk_index = idx`, `chunk_text = chunk`,
`document_name` from the metadata filename — and upsert the whole batch
at once.  Returns the updated store and the count, or an error message
with the store untouched.  `idGen i` supplies the fresh uuid of the
`i`-th point; `emb` is the embedding type. -/
def buildPoints {emb : Type} (document_id : String) (chunks : List String)
    (embeddings : List emb) (idGen : Nat → Nat) (filename : String) :
    List Entry :=
  (chunks.zip embeddings).enum.map
    (fun p => { pid := idGen p.1, document_id := document_id,
                chunk_index := p.1, chunk_text := p.2.1,
                document_name := filename })

def add_documents {emb : Type} (store : List Entry) (document_id : String)
    (chunks : List String) (embeddings : List emb) (idGen : Nat → Nat)
    (filename : String) : List Entry × Except String Nat :=
  if chunks.length ≠ embeddings.length then
    (store, .error "Chunks count doesn't match embeddings count")
  else
    let points := buildPoints document_id chunks embeddings idGen filename
    (store ++ points, .ok points.length)

/-- `QdrantVectorStore.similarity_search`: when the Python argument
`document_ids` is truthy (i.e. not `None` and not the empty list) the
search is filtered to entries whose `document_id` is in the list;
otherwise no filter is applied.  Results are the `limit` best entries by
score. -/
def similarity_search (store : List Entry) (score : Entry → Int)
    (limit : Nat) (document_ids : Option (List String)) : List Entry :=
  let eligible :=
    match document_ids with
    | none => store
    | some ids =>
      if ids.isEmpty then store
      else store.filter (fun e => ids.contains e.document_id)
  (eligible.mergeSort (fun a b => score b ≤ score a)).take limit

/-- `QdrantVectorStore.delete_by_document_id`: scroll one page of at
most 10000 points whose payload `document_id` matches, delete exactly
those point ids, and return how many.  Returns the new store and the
count. -/
def delete_by_document_id (store : List Entry) (document_id : String) :
    List Entry × Nat :=
  let points := (store.filter (fun e => e.document_id = document_id)).take 10000
  let point_ids := points.map (·.pid)
  if point_ids.isEmpty then (store, 0)
  else (store.filter (fun e => ¬ point_ids.contains e.pid), point_ids.length)

/-! ### `app/services/memory_service.py`

A session's Redis list `session:<id>:messages` is modelled as a
`List RMsg` in push order (`RPUSH` appends at the tail).  Timestamps
(`datetime.utcnow()`) are supplied as arguments. -/

structure RMsg where
  role : String
  message : String
  timestamp : String
deriving Repr, DecidableEq

/-- Redis `LRANGE key start stop`: negative indexes count from the
tail (`-1` is the last element); a start before the head clamps to 0;
an empty range when start exceeds stop or the list end. -/
def lrange {α : Type} (l : List α) (start stop : Int) : List α :=
  let n : Int := l.length
  let s : Int := if start < 0 then max (n + start) 0 else start
  let e : Int := if stop < 0 then n + stop else min stop (n - 1)
  if s > e then [] else (l.drop s.toNat).take (e - s + 1).toNat

/-- `MemoryService.save_message`: `RPUSH` the message onto the
session's list. -/
def save_message (msgs : List RMsg) (role message timestamp : String) :
    List RMsg :=
  msgs ++ [{ role := role, message := message, timestamp := timestamp }]

/-- `MemoryService.get_conversation_history`: `lrange(key, -limit, -1)`
and decode each entry. -/
def get_conversation_history (msgs : List RMsg) (limit : Nat) : List RMsg :=
  lrange msgs (-(limit : Int)) (-1)

/-- `MemoryService.format_history_for_llm`: keep role and content. -/
structure PMsg where
  role : String
  content : String
deriving Repr, DecidableEq

def format_history_for_llm (msgs : List RMsg) : List PMsg :=
  msgs.map (fun m => { role := m.role, content := m.message })

/-! ### `app/services/embedding_service.py` -/

/-- `EmbeddingService.generate_embeddings_batch`: reject an empty list;
drop entries that are falsy or strip to empty; fail when every entry
was dropped; otherwise encode the surviving texts in order.  The
sentence-transformers model is abstracted as `model`. -/
def generate_embeddings_batch {emb : Type} (model : String → emb)
    (texts : List String) : Except String (List emb) :=
  if texts.isEmpty then
    .error "Cannot generate embeddings for empty list"
  else
    let valid_texts := texts.filter
      (fun t => ¬ t.isEmpty ∧ ¬ (pyStripS t).isEmpty)
    if valid_texts.isEmpty then .error "All texts are empty"
    else .ok (valid_texts.map model)

/-! ### `app/services/rag_service.py`

The Groq chat-completion call is abstracted as a function
`llm : List PMsg → Except String String`; `.error` models the API call
raising.  Retrieved context chunks enter `ask` through
`retrieve_context`, itself built on the vector store; for the prompt we
carry the fields `_format_context` and `format_sources` read.  The
float relevance score is carried pre-rendered as a string (floats are
not modelled). -/

structure SChunk where
  chunk_text : String
  document_id : String
  document_name : String
  chunk_index : Nat
  scoreStr : String
deriving Repr, DecidableEq

def systemMessage : String :=
  "You are a helpful AI assistant that answers questions based on provided context.\nRules:\n- Answer based on the provided context\n- If the context doesn't contain relevant information, say so\n- Be concise and accurate\n- Cite sources when appropriate\n- If you're unsure, acknowledge it"

/-- `RAGService._format_context`. -/
def format_context (chunks : List SChunk) : String :=
  if chunks.isEmpty then "No relevant context found."
  else
    String.intercalate "\n\n"
      (chunks.enum.map (fun p =>
        "[Source " ++ toString (p.1 + 1) ++ " - " ++ p.2.document_name ++
        " (relevance: " ++ p.2.scoreStr ++ ")]:\n" ++ p.2.chunk_text))

/-- `RAGService.build_prompt`: system message, then up to the last 5
history messages, then the user prompt wrapping context and question. -/
def build_prompt (question : String) (context_chunks : List SChunk)
    (conversation_history : List PMsg) : List PMsg :=
  let histPart :=
    if conversation_history.isEmpty then []
    else
      let history_limit := min conversation_history.length 5
      conversation_history.drop (conversation_history.length - history_limit)
  ({ role := "system", content := systemMessage } : PMsg) ::
    histPart ++
    [{ role := "user",
       content := "Context:\n" ++ format_context context_chunks ++
         "\n\nQuestion: " ++ question ++
         "\n\nPlease answer the question based on the context provided above." }]

/-- `RAGService.generate_answer`: call the LLM; any failure is wrapped
into an `LLMException` carrying the message. -/
structure LLMException where
  msg : String
deriving Repr, DecidableEq

def generate_answer (llm : List PMsg → Except String String)
    (messages : List PMsg) : Except LLMException String :=
  match llm messages with
  | .error e => .error { msg := e }
  | .ok answer => .ok answer

/-- `RAGService.format_sources`. -/
structure Source where
  text : String
  document_id : String
  document_name : String
  chunk_index : Nat
  scoreStr : String
deriving Repr, DecidableEq

def format_sources (chunks : List SChunk) : List Source :=
  chunks.map (fun c =>
    { text := c.chunk_text, document_id := c.document_id,
      document_name := c.document_name, chunk_index := c.chunk_index,
      scoreStr := c.scoreStr })

structure AskResult where
  answer : String
  sources : List Source
  session_id : String
deriving Repr, DecidableEq

/-- `RAGService.ask`: save the user message, retrieve context, fetch the
last 10 history messages and drop the final one (`[:-1]`, the question
just saved), build the prompt, generate; on success save the assistant
message and return answer plus sources.  An `LLMException` from
generation propagates unchanged (`except LLMException: raise`).
Returns the session's message list after the call together with the
outcome. -/
def ask (llm : List PMsg → Except String String) (question session_id : String)
    (msgs : List RMsg) (context_chunks : List SChunk) (ts1 ts2 : String) :
    List RMsg × Except LLMException AskResult :=
  let msgs1 := save_message msgs "user" question ts1
  let conversation_history := get_conversation_history msgs1 10
  let formatted_history := format_history_for_llm conversation_history.dropLast
  let messages := build_prompt question context_chunks formatted_history
  match generate_answer llm messages with
  | .error e => (msgs1, .error e)
  | .ok answer =>
    let msgs2 := save_message msgs1 "assistant" answer ts2
    (msgs2, .ok { answer := answer,
                  sources := format_sources context_chunks,
                  session_id := session_id })

/-- No two adjacent characters are both whitespace. -/
def noAdjacentWS (l : List Char) : Prop :=
  l.Chain' (fun a b => ¬ (pySpace a = true ∧ pySpace b = true))

/-- A collection of 10001 points, all tagged with document id `"D"`,
with distinct point ids 0..10000. -/
def bigStoreD : List Entry :=
  (List.range 10001).map
    (fun i => { pid := i, document_id := "D", chunk_index := 0,
                chunk_text := "", document_name := "" })

/-! ## Verification -/

/-! ### Chunking (C1, C5) -/

theorem ceilDivNat_sub_step (n step : Nat) (hstep : 0 < step) (hn : 0 < n) :
    ceilDivNat (n - step) step + 1 = ceilDivNat n step := by
  unfold ceilDivNat
  have h1 : n + step - 1 = (n - 1) + step := by omega
  rw [h1, Nat.add_div_right _ hstep]
  by_cases hle : n ≤ step
  · have h0 : n - step = 0 := by omega
    rw [h0]
    have h2 : (0 + step - 1) / step = 0 := Nat.div_eq_of_lt (by omega)
    have h3 : (n - 1) / step = 0 := Nat.div_eq_of_lt (by omega)
    rw [h2, h3]
  · have h4 : n - step + step - 1 = (n - step - 1) + step := by omega
    rw [h4, Nat.add_div_right _ hstep]
    have h5 : n - 1 = (n - step - 1) + step := by omega
    rw [h5, Nat.add_div_right _ hstep]

theorem chunkLoop_length (text : List Char) (size ov : Nat) (hov : ov < size) :
    ∀ start, (chunkLoop text size ov start).length =
      ceilDivNat (text.length - start) (size - ov) := by
  have key : ∀ n start, text.length - start ≤ n →
      (chunkLoop text size ov start).length =
        ceilDivNat (text.length - start) (size - ov) := by
    intro n
    induction n with
    | zero =>
      intro start hst
      rw [chunkLoop, dif_neg (by omega)]
      have h0 : text.length - start = 0 := by omega
      rw [h0]
      have h2 : (size - ov - 1) / (size - ov) = 0 :=
        Nat.div_eq_of_lt (by omega)
      simp [ceilDivNat, h2]
    | succ n ih =>
      intro start hst
      by_cases hlt : start < text.length
      · rw [chunkLoop, dif_pos ⟨hlt, hov⟩]
        simp only [List.length_cons]
        rw [ih (start + (size - ov)) (by omega)]
        have hsub : text.length - (start + (size - ov)) =
            (text.length - start) - (size - ov) := by omega
        rw [hsub]
        exact ceilDivNat_sub_step (text.length - start) (size - ov)
          (by omega) (by omega)
      · rw [chunkLoop, dif_neg (by omega)]
        have h0 : text.length - start = 0 := by omega
        rw [h0]
        have h2 : (size - ov - 1) / (size - ov) = 0 :=
          Nat.div_eq_of_lt (by omega)
        simp [ceilDivNat, h2]
  intro start
  exact key (text.length - start) start le_rfl

/-- C1 counterexample: for the 10-character text with chunk size 5 and
overlap 2 (so L > S, 1 ≤ O < S), the fixed chunker returns 4 chunks
while the spec formula ceil((L − O) / (S − O)) gives 3. -/
theorem chunk_count_spec_formula_false :
    (chunk_text_fixed ['a','b','c','d','e','f','g','h','i','j'] 5 2).length ≠
      ceilDivNat (['a','b','c','d','e','f','g','h','i','j'].length - 2) (5 - 2) := by
  have h4 : (chunk_text_fixed ['a','b','c','d','e','f','g','h','i','j'] 5 2).length = 4 := by
    have := chunkLoop_length ['a','b','c','d','e','f','g','h','i','j'] 5 2 (by omega) 0
    rw [chunk_text_fixed, if_neg (by decide)]
    rw [this]
    decide
  rw [h4]
  decide

/-- C1 (amended): for every text of length L > S chunked with the fixed
strategy using chunk size S and overlap O with 1 ≤ O < S,
`chunk_text_fixed` returns exactly ceil(L / (S − O)) chunks. -/
theorem chunk_text_fixed_count (text : List Char) (S O : Nat)
    (hOS : O < S) (hO : 1 ≤ O) (hL : S < text.length) :
    (chunk_text_fixed text S O).length = ceilDivNat text.length (S - O) := by
  rw [chunk_text_fixed, if_neg (by omega)]
  have h := chunkLoop_length text S O hOS 0
  simpa using h

theorem chunk_text_fixed_count_witness :
    ((2 : Nat) < 5 ∧ 1 ≤ 2 ∧ 5 < ['a','b','c','d','e','f','g','h','i','j'].length) ∧
    (chunk_text_fixed ['a','b','c','d','e','f','g','h','i','j'] 5 2).length =
      ceilDivNat ['a','b','c','d','e','f','g','h','i','j'].length (5 - 2) :=
  ⟨⟨by decide, by decide, by decide⟩,
    chunk_text_fixed_count ['a','b','c','d','e','f','g','h','i','j'] 5 2
      (by decide) (by decide) (by decide)⟩

/-- C5 counterexample: a text of length ≤ chunk size that carries
leading and trailing whitespace comes back as one chunk equal to the
raw input, not to the trimmed input. -/
theorem chunk_text_fixed_short_untrimmed :
    chunk_text_fixed [' ','a',' '] 5 2 ≠ [pyStrip [' ','a',' ']] := by
  decide

/-- C5 (amended): for every text whose length is ≤ the chunk size,
fixed-strategy chunking returns exactly one chunk, and that chunk is
the input unchanged (no trimming happens on this path). -/
theorem chunk_text_fixed_short (text : List Char) (size overlap : Nat)
    (h : text.length ≤ size) :
    chunk_text_fixed text size overlap = [text] := by
  rw [chunk_text_fixed, if_pos h]

theorem chunk_text_fixed_short_witness :
    (' ' :: 'a' :: [' ']).length ≤ 5 ∧
    chunk_text_fixed [' ','a',' '] 5 2 = [[' ','a',' ']] :=
  ⟨by decide, chunk_text_fixed_short [' ','a',' '] 5 2 (by decide)⟩

/-! ### Text cleaning (C2) -/

theorem collapseWS_cons_not_space (c : Char) (l : List Char)
    (h : ¬ pySpace c = true) : collapseWS (c :: l) = c :: collapseWS l := by
  cases l <;> simp [collapseWS, h]

theorem mem_collapseWS (l : List Char) :
    ∀ c ∈ collapseWS l, c = ' ' ∨ pySpace c = false := by
  induction l using collapseWS.induct with
  | case1 => intro c hc; simp [collapseWS] at hc
  | case2 d hd =>
    intro c hc
    simp [collapseWS, hd] at hc
    left; exact hc
  | case3 d hd d1 rest2 hd1 ih =>
    intro c hc
    rw [show collapseWS (d :: d1 :: rest2) = collapseWS (d1 :: rest2) by
      simp [collapseWS, hd, hd1]] at hc
    exact ih c hc
  | case4 d hd d1 rest2 hd1 ih =>
    intro c hc
    rw [show collapseWS (d :: d1 :: rest2) = ' ' :: collapseWS (d1 :: rest2) by
      simp [collapseWS, hd, hd1]] at hc
    rcases List.mem_cons.mp hc with h1 | h1
    · left; exact h1
    · exact ih c h1
  | case5 d rest2 hd ih =>
    intro c hc
    rw [collapseWS_cons_not_space d rest2 hd] at hc
    rcases List.mem_cons.mp hc with h1 | h1
    · right; subst h1; simpa using hd
    · exact ih c h1

theorem collapseWS_no_adjacent (l : List Char) :
    noAdjacentWS (collapseWS l) := by
  induction l using collapseWS.induct with
  | case1 => simp [collapseWS, noAdjacentWS]
  | case2 d hd => simp [collapseWS, hd, noAdjacentWS]
  | case3 d hd d1 rest2 hd1 ih =>
    rw [show collapseWS (d :: d1 :: rest2) = collapseWS (d1 :: rest2) by
      simp [collapseWS, hd, hd1]]
    exact ih
  | case4 d hd d1 rest2 hd1 ih =>
    rw [show collapseWS (d :: d1 :: rest2) = ' ' :: collapseWS (d1 :: rest2) by
      simp [collapseWS, hd, hd1]]
    rw [noAdjacentWS, List.chain'_cons']
    refine ⟨?_, ih⟩
    intro y hy
    rw [collapseWS_cons_not_space d1 rest2 hd1] at hy
    simp at hy
    subst hy
    exact fun hcontra => hd1 hcontra.2
  | case5 d rest2 hd ih =>
    rw [collapseWS_cons_not_space d rest2 hd]
    rw [noAdjacentWS, List.chain'_cons']
    refine ⟨?_, ih⟩
    intro y _
    exact fun hcontra => hd hcontra.1

theorem collapseWS_no_nl (l : List Char) :
    ∀ c ∈ collapseWS l, c ≠ '\n' := by
  intro c hc
  rcases mem_collapseWS l c hc with h | h
  · subst h; decide
  · intro hcn; subst hcn; simp [pySpace] at h

theorem subNLRuns_id_of_no_nl (l : List Char)
    (h : ∀ c ∈ l, c ≠ '\n') : subNLRuns l = l := by
  induction l with
  | nil => simp [subNLRuns]
  | cons c rest ih =>
    have hc : ¬ c = '\n' := h c (List.mem_cons_self c rest)
    rw [subNLRuns, if_neg hc]
    rw [ih (fun d hd => h d (List.mem_cons_of_mem c hd))]

theorem mem_pyStrip (l : List Char) (c : Char) (hc : c ∈ pyStrip l) :
    c ∈ l := by
  have h1 : (List.dropWhile pySpace l).rdropWhile pySpace <+:
      List.dropWhile pySpace l := List.rdropWhile_prefix pySpace _
  have h2 : List.dropWhile pySpace l <:+ l := List.dropWhile_suffix pySpace
  exact h2.sublist.subset (h1.sublist.subset hc)

theorem pyStrip_noAdjacentWS (l : List Char) (h : noAdjacentWS l) :
    noAdjacentWS (pyStrip l) := by
  have h1 : noAdjacentWS (List.dropWhile pySpace l) :=
    List.Chain'.suffix h (List.dropWhile_suffix pySpace)
  exact List.Chain'.prefix h1 (List.rdropWhile_prefix pySpace _)

/-- C2 counterexample: the input `"a\n\n\nb"` contains a run of three
newlines, yet `clean_text` returns `"a b"` — a single space, with no
two-newline (blank-line) separator anywhere in the output. -/
theorem clean_text_no_blank_line_at_nl_run :
    clean_text ['a','\n','\n','\n','b'] = ['a',' ','b'] ∧
    ∀ c ∈ clean_text ['a','\n','\n','\n','b'], c ≠ '\n' := by
  have h1 : remove_control_characters ['a','\n','\n','\n','b'] =
      ['a','\n','\n','\n','b'] := by decide
  have h2 : collapseWS ['a','\n','\n','\n','b'] = ['a',' ','b'] := by decide
  have h3 : subNLRuns ['a',' ','b'] = ['a',' ','b'] :=
    subNLRuns_id_of_no_nl _ (by decide)
  have hct : clean_text ['a','\n','\n','\n','b'] = ['a',' ','b'] := by
    rw [clean_text, if_neg (by decide), normalize_whitespace, h1, h2, h3]
    decide
  refine ⟨hct, ?_⟩
  rw [hct]
  decide

/-- C2 (amended): for every input string, `clean_text` collapses every
run of whitespace (newlines included) to a single space: the cleaned
output never contains two adjacent whitespace characters and never
contains a newline, so a blank-line separator never appears — the
3+-newline rule is unreachable. -/
theorem clean_text_collapses_all_whitespace (l : List Char) :
    (∀ c ∈ clean_text l, c ≠ '\n') ∧ noAdjacentWS (clean_text l) := by
  by_cases h : l = []
  · subst h
    constructor
    · intro c hc; simp [clean_text] at hc
    · simp [clean_text, noAdjacentWS]
  · rw [clean_text, if_neg h, normalize_whitespace]
    have hnl : ∀ c ∈ collapseWS (remove_control_characters l), c ≠ '\n' :=
      collapseWS_no_nl _
    rw [subNLRuns_id_of_no_nl _ hnl]
    constructor
    · intro c hc
      exact hnl c (mem_pyStrip _ c hc)
    · exact pyStrip_noAdjacentWS _ (collapseWS_no_adjacent _)

theorem clean_text_collapses_all_whitespace_witness :
    ('a' ∈ clean_text ['a']) ∧ 'a' ≠ '\n' ∧ noAdjacentWS (clean_text ['a']) := by
  have hct : clean_text ['a'] = ['a'] := by
    rw [clean_text, if_neg (by decide), normalize_whitespace,
      show remove_control_characters ['a'] = ['a'] from by decide,
      show collapseWS ['a'] = ['a'] from by decide,
      subNLRuns_id_of_no_nl ['a'] (by decide)]
    decide
  refine ⟨by rw [hct]; decide, ?_, (clean_text_collapses_all_whitespace ['a']).2⟩
  exact (clean_text_collapses_all_whitespace ['a']).1 'a' (by rw [hct]; decide)

/-! ### Vector store search and delete (C3, C6) -/

/-- C3 counterexample: with one stored entry tagged `"d"` and the empty
list supplied as the document-id filter, the search returns that entry
even though its document id is not a member of the empty list — the
empty filter is dropped, not applied. -/
theorem similarity_search_empty_filter_ignored :
    similarity_search
      [{ pid := 0, document_id := "d", chunk_index := 0,
         chunk_text := "t", document_name := "" }]
      (fun _ => 0) 5 (some ([] : List String)) =
      [{ pid := 0, document_id := "d", chunk_index := 0,
         chunk_text := "t", document_name := "" }] ∧
    ("d" : String) ∉ ([] : List String) := by
  constructor
  · simp [similarity_search, List.mergeSort_singleton]
  · simp

/-- C3 (amended): when a non-empty document-id filter list is supplied,
`similarity_search` returns only entries whose `document_id` is a
member of the list, and when no stored entry matches the list the
result is the empty list; an empty filter list instead disables
filtering entirely. -/
theorem similarity_search_filter_members (store : List Entry)
    (score : Entry → Int) (limit : Nat) (ids : List String)
    (hne : ids ≠ []) :
    (∀ e ∈ similarity_search store score limit (some ids),
       e.document_id ∈ ids) ∧
    ((∀ e ∈ store, e.document_id ∉ ids) →
       similarity_search store score limit (some ids) = []) := by
  have hfalse : ids.isEmpty = false := by
    cases ids with
    | nil => exact absurd rfl hne
    | cons a l => rfl
  constructor
  · intro e he
    simp only [similarity_search, hfalse, Bool.false_eq_true, if_false] at he
    have h1 := List.mem_of_mem_take he
    rw [List.mem_mergeSort] at h1
    have h2 := List.of_mem_filter h1
    simpa using h2
  · intro hnone
    have hf : store.filter (fun e => decide (e.document_id ∈ ids)) = [] := by
      rw [List.filter_eq_nil_iff]
      intro a ha
      simpa using hnone a ha
    simp [similarity_search, hfalse, hf]

theorem similarity_search_filter_members_witness :
    (["x"] ≠ ([] : List String)) ∧
    (∀ e ∈ similarity_search
        [{ pid := 0, document_id := "d", chunk_index := 0,
           chunk_text := "t", document_name := "" }]
        (fun _ => 0) 5 (some ["x"]), e.document_id ∈ ["x"]) ∧
    similarity_search
        [{ pid := 0, document_id := "d", chunk_index := 0,
           chunk_text := "t", document_name := "" }]
        (fun _ => 0) 5 (some ["x"]) = [] := by
  have h := similarity_search_filter_members
    [{ pid := 0, document_id := "d", chunk_index := 0,
       chunk_text := "t", document_name := "" }]
    (fun _ => 0) 5 ["x"] (by decide)
  exact ⟨by decide, h.1, h.2 (by decide)⟩

/-- C6: with 10001 entries tagged `"D"` in the store, one entry tagged
`"D"` survives `delete_by_document_id` — the single scroll page of
10000 points misses it. -/
theorem delete_by_document_id_scroll_cap :
    ∃ e ∈ (delete_by_document_id bigStoreD "D").1, e.document_id = "D" := by
  have hfilter : bigStoreD.filter (fun e => e.document_id = "D") = bigStoreD := by
    rw [List.filter_eq_self]
    intro a ha
    obtain ⟨i, hi, rfl⟩ := List.mem_map.mp ha
    simp
  have htake : bigStoreD.take 10000 =
      (List.range 10000).map
        (fun i => ({ pid := i, document_id := "D", chunk_index := 0,
                     chunk_text := "", document_name := "" } : Entry)) := by
    rw [bigStoreD, ← List.map_take, List.take_range]
    norm_num
  have hids : ((List.range 10000).map
      (fun i => ({ pid := i, document_id := "D", chunk_index := 0,
                   chunk_text := "", document_name := "" } : Entry))).map (·.pid) =
      List.range 10000 := by
    rw [List.map_map]
    show (List.range 10000).map (fun i => i) = List.range 10000
    simp
  have hne : (List.range 10000).isEmpty = false := by
    simp [List.isEmpty_iff, List.range_eq_nil]
  refine ⟨{ pid := 10000, document_id := "D", chunk_index := 0,
            chunk_text := "", document_name := "" }, ?_, rfl⟩
  simp only [delete_by_document_id, hfilter, htake, hids, hne,
    Bool.false_eq_true, if_false]
  rw [List.mem_filter]
  constructor
  · rw [bigStoreD]
    exact List.mem_map.mpr ⟨10000, List.mem_range.mpr (by norm_num), rfl⟩
  · simp [List.mem_range]

/-! ### Conversation memory (C7, C10) -/

/-- C7 counterexample: a session holding one message, retrieved with
limit 0 (and 0 < N = 1), returns that message rather than the last 0
messages (the empty sequence): `-0` is `0`, so `lrange(0, -1)` spans
the whole list. -/
theorem get_history_limit_zero_not_last_zero :
    (0 < ([{ role := "user", message := "q", timestamp := "t" }] : List RMsg).length) ∧
    get_conversation_history
      [{ role := "user", message := "q", timestamp := "t" }] 0 ≠ [] := by
  decide

/-- C7 (amended): for every session, after appending messages m1..mN in
order, retrieving with limit = k for 1 ≤ k < N returns exactly the last
k appended messages in original chronological order; a session with no
messages returns the empty sequence for every limit. -/
theorem get_conversation_history_window (msgs : List RMsg) (k : Nat) :
    (1 ≤ k → k < msgs.length →
       get_conversation_history msgs k = msgs.drop (msgs.length - k)) ∧
    get_conversation_history ([] : List RMsg) k = [] := by
  constructor
  · intro hk1 hkN
    simp only [get_conversation_history, lrange]
    rw [if_pos (show -(k : Int) < 0 by omega)]
    rw [if_pos (show (-1 : Int) < 0 by norm_num)]
    rw [max_eq_left (show (0 : Int) ≤ (msgs.length : Int) + -(k : Int) by omega)]
    rw [if_neg (show ¬((msgs.length : Int) + -(k : Int) >
      (msgs.length : Int) + -1) by omega)]
    have hd : ((msgs.length : Int) + -(k : Int)).toNat = msgs.length - k := by
      omega
    have ht : ((msgs.length : Int) + -1 - ((msgs.length : Int) + -(k : Int)) + 1).toNat
        = k := by omega
    rw [hd, ht]
    apply List.take_of_length_le
    rw [List.length_drop]
    omega
  · simp only [get_conversation_history, lrange, List.length_nil]
    split_ifs <;> simp

theorem get_conversation_history_window_witness :
    ((1 : Nat) ≤ 1 ∧
      1 < ([{ role := "user", message := "a", timestamp := "t1" },
            { role := "assistant", message := "b", timestamp := "t2" }] :
            List RMsg).length) ∧
    get_conversation_history
       [{ role := "user", message := "a", timestamp := "t1" },
        { role := "assistant", message := "b", timestamp := "t2" }] 1 =
      [{ role := "assistant", message := "b", timestamp := "t2" }] := by
  have h := (get_conversation_history_window
    [{ role := "user", message := "a", timestamp := "t1" },
     { role := "assistant", message := "b", timestamp := "t2" }] 1).1
    (by decide) (by decide)
  exact ⟨⟨by decide, by decide⟩, by rw [h]; rfl⟩

/-- C10: for a session holding N ≥ 1 messages, limit = 0 returns all N
messages: the window is `lrange(-0, -1) = lrange(0, -1)`, the whole
list. -/
theorem get_conversation_history_limit_zero (msgs : List RMsg)
    (h : 1 ≤ msgs.length) :
    get_conversation_history msgs 0 = msgs := by
  simp only [get_conversation_history, lrange, Nat.cast_zero, neg_zero]
  rw [if_neg (show ¬((0 : Int) < 0) by norm_num)]
  rw [if_pos (show (-1 : Int) < 0 by norm_num)]
  rw [if_neg (show ¬((0 : Int) > (msgs.length : Int) + -1) by omega)]
  have ht : ((msgs.length : Int) + -1 - 0 + 1).toNat = msgs.length := by omega
  rw [ht, Int.toNat_zero, List.drop_zero, List.take_length]

theorem get_conversation_history_limit_zero_witness :
    (1 : Nat) ≤ ([{ role := "user", message := "q", timestamp := "t" }] :
      List RMsg).length ∧
    get_conversation_history
      [{ role := "user", message := "q", timestamp := "t" }] 0 =
      [{ role := "user", message := "q", timestamp := "t" }] :=
  ⟨by decide, get_conversation_history_limit_zero
    [{ role := "user", message := "q", timestamp := "t" }] (by decide)⟩

/-! ### RAG pipeline error path (C4) -/

/-- C4: if the LLM generation step inside `ask` fails, `ask` returns
with the user's question still persisted at the tail of the session
(not rolled back), no assistant message recorded for the request, and
the failure surfaced as an `LLMException`. -/
theorem ask_llm_failure (llm : List PMsg → Except String String)
    (question session_id : String) (msgs : List RMsg)
    (context_chunks : List SChunk) (ts1 ts2 e : String)
    (h : llm (build_prompt question context_chunks
        (format_history_for_llm
          (get_conversation_history
            (save_message msgs "user" question ts1) 10).dropLast)) =
      .error e) :
    ask llm question session_id msgs context_chunks ts1 ts2 =
      (msgs ++ [{ role := "user", message := question, timestamp := ts1 }],
       .error { msg := e }) := by
  simp only [save_message] at h
  simp only [ask, generate_answer, save_message, h]

theorem ask_llm_failure_witness :
    ask (fun _ => .error "boom") "q" "s" [] [] "t1" "t2" =
      ([{ role := "user", message := "q", timestamp := "t1" }],
       .error { msg := "boom" }) := by
  have h := ask_llm_failure (fun _ => .error "boom") "q" "s" [] [] "t1" "t2"
    "boom" rfl
  simpa using h

/-! ### Vector store insertion (C8) -/

theorem buildPoints_length {emb : Type} (d : String) (chunks : List String)
    (embeddings : List emb) (idGen : Nat → Nat) (filename : String)
    (h : chunks.length = embeddings.length) :
    (buildPoints d chunks embeddings idGen filename).length = chunks.length := by
  rw [buildPoints, List.length_map, List.enum_length, List.length_zip, ← h,
    Nat.min_self]

/-- C8: `add_documents` rejects mismatched chunk/embedding list lengths
leaving the store untouched; on matching lengths it appends exactly one
point per pair in a single batch, the i-th carrying `chunk_index = i`
and the given document id, and reports the count. -/
theorem add_documents_spec {emb : Type} (store : List Entry) (d : String)
    (chunks : List String) (embeddings : List emb) (idGen : Nat → Nat)
    (filename : String) :
    (chunks.length ≠ embeddings.length →
       add_documents store d chunks embeddings idGen filename =
         (store, .error "Chunks count doesn't match embeddings count")) ∧
    (chunks.length = embeddings.length →
       add_documents store d chunks embeddings idGen filename =
         (store ++ buildPoints d chunks embeddings idGen filename,
          .ok chunks.length) ∧
       (buildPoints d chunks embeddings idGen filename).length = chunks.length ∧
       ∀ i (hi : i < (buildPoints d chunks embeddings idGen filename).length),
         ((buildPoints d chunks embeddings idGen filename).get ⟨i, hi⟩).chunk_index
             = i ∧
         ((buildPoints d chunks embeddings idGen filename).get ⟨i, hi⟩).document_id
             = d) := by
  constructor
  · intro h
    simp only [add_documents]
    rw [if_pos h]
  · intro h
    have hlen := buildPoints_length d chunks embeddings idGen filename h
    refine ⟨?_, hlen, ?_⟩
    · simp only [add_documents]
      rw [if_neg (fun hne => hne h), hlen]
    · intro i hi
      constructor <;>
        simp [buildPoints, List.get_eq_getElem, List.getElem_map,
          List.getElem_enum]

theorem add_documents_spec_witness :
    ((["c"] : List String).length ≠ ([] : List Nat).length ∧
      add_documents ([] : List Entry) "d" ["c"] ([] : List Nat)
        (fun i => i) "f" =
        ([], .error "Chunks count doesn't match embeddings count")) ∧
    add_documents ([] : List Entry) "d" ["c"] ([7] : List Nat)
      (fun i => i) "f" =
      ([{ pid := 0, document_id := "d", chunk_index := 0, chunk_text := "c",
          document_name := "f" }], .ok 1) := by
  constructor
  · exact ⟨by decide,
      (add_documents_spec [] "d" ["c"] [] (fun i => i) "f").1 (by decide)⟩
  · have h := ((add_documents_spec ([] : List Entry) "d" ["c"]
      ([7] : List Nat) (fun i => i) "f").2 rfl).1
    exact h.trans rfl

/-! ### Batch embeddings (C9) -/

/-- C9: `generate_embeddings_batch` fails on the empty list; otherwise
it drops blank (whitespace-only or empty) entries, fails exactly when
all entries are blank, and returns one embedding per surviving
non-blank entry, in order. -/
theorem generate_embeddings_batch_spec {emb : Type} (model : String → emb)
    (texts : List String) :
    (texts = [] →
       generate_embeddings_batch model texts =
         .error "Cannot generate embeddings for empty list") ∧
    (texts ≠ [] →
       ((∀ t ∈ texts, (pyStripS t).isEmpty = true) →
          generate_embeddings_batch model texts =
            .error "All texts are empty") ∧
       ((∃ t ∈ texts, (pyStripS t).isEmpty = false) →
          generate_embeddings_batch model texts =
            .ok ((texts.filter
              (fun t => ¬ t.isEmpty ∧ ¬ (pyStripS t).isEmpty)).map model))) := by
  constructor
  · intro h
    subst h
    rfl
  · intro hne
    have hEmptyFalse : texts.isEmpty = false := by
      cases texts with
      | nil => exact absurd rfl hne
      | cons a l => rfl
    constructor
    · intro hall
      simp [generate_embeddings_batch, hEmptyFalse]
      intro x hx _
      exact hall x hx
    · rintro ⟨t0, ht0, hstrip⟩
      have ht0e : t0.isEmpty = false := by
        cases h0 : t0.isEmpty
        · rfl
        · exfalso
          rw [String.isEmpty_iff] at h0
          subst h0
          have hse : (pyStripS "").isEmpty = true := rfl
          rw [hse] at hstrip
          exact absurd hstrip (by decide)
      simp [generate_embeddings_batch, hEmptyFalse]
      exact ⟨t0, ht0, ht0e, hstrip⟩

theorem generate_embeddings_batch_spec_witness :
    (generate_embeddings_batch (fun s => s.length) ([] : List String) =
       .error "Cannot generate embeddings for empty list") ∧
    (generate_embeddings_batch (fun s => s.length) [" ", ""] =
       .error "All texts are empty") ∧
    (generate_embeddings_batch (fun s => s.length) ["", "hi"] = .ok [2]) := by
  refine ⟨(generate_embeddings_batch_spec (fun s => s.length) []).1 rfl, ?_, ?_⟩
  · exact ((generate_embeddings_batch_spec (fun s => s.length)
      [" ", ""]).2 (by decide)).1 (by decide)
  · have h := ((generate_embeddings_batch_spec (fun s : String => s.length)
      ["", "hi"]).2 (by decide)).2 ⟨"hi", by decide, by decide⟩
    exact h.trans rfl

end RAGQnA
